import Mathlib

/-!
Verification of the connectivity state model and platform adapters of the
rust-connectivity crate, shallowly embedded in Lean 4.

The embedding follows `src/state.rs` (the platform independent state model),
`src/linux.rs` (the rt-netlink adapter and driver loop), and
`src/windows.rs` (the IP Helper adapter).  Machine integers are modelled as
`Nat` (all operations used are bit tests, equality and set membership, so no
overflow arises); `HashMap`/`HashSet` are modelled as association lists /
duplicate-free lists with the corresponding insert/remove/lookup semantics.
-/

namespace RustConnectivity

/-- Modelled from the spec: the crate root that declares `ConnectivityState`
is not part of the sources; the spec fixes it as the ordered enum
`{ None < Network < Internet }` (derived `Ord` in declaration order). -/
inductive ConnectivityState where
  | none
  | network
  | internet
deriving DecidableEq, Repr

namespace ConnectivityState

/-- Numeric rank used to express the derived order of the enum. -/
def toNat : ConnectivityState → Nat
  | .none => 0
  | .network => 1
  | .internet => 2

/-- The derived order of the enum: `None < Network < Internet`. -/
def le (a b : ConnectivityState) : Prop := a.toNat ≤ b.toNat

instance (a b : ConnectivityState) : Decidable (le a b) :=
  inferInstanceAs (Decidable (a.toNat ≤ b.toNat))

/-- Rust `core::cmp::max` on the derived `Ord`: returns the second argument
when the two compare equal. -/
def cmax (a b : ConnectivityState) : ConnectivityState :=
  if b.toNat < a.toNat then a else b

end ConnectivityState

/-- Modelled from the spec: `Connectivity` is the pair of per-family levels
declared in the missing crate root. -/
structure Connectivity where
  ipv4 : ConnectivityState
  ipv6 : ConnectivityState
deriving DecidableEq, Repr

/-- Rust `std::net::IpAddr`: tagged union of a 4-byte v4 address and a 16-byte
v6 address.  The payload is the byte list produced by the adapters. -/
inductive IpAddr where
  | V4 (bytes : List Nat)
  | V6 (bytes : List Nat)
deriving DecidableEq, Repr

/-- Interface index (`u32`). -/
abbrev InterfaceIndex := Nat
/-- Route priority (`u32`). -/
abbrev Priority := Nat

/-- Rust `LinkInfo = (InterfaceIndex, LoopBack, Carrier)`. -/
abbrev LinkInfo := InterfaceIndex × Bool × Bool
/-- Rust `AddressInfo = (InterfaceIndex, IpAddr)`. -/
abbrev AddressInfo := InterfaceIndex × IpAddr
/-- Rust `RouteInfo = (InterfaceIndex, IpAddr, Priority)`. -/
abbrev RouteInfo := InterfaceIndex × IpAddr × Priority

/-- Rust `HashSet::insert`: a no-op when the element is present. -/
def hsInsert {α : Type} [DecidableEq α] (x : α) (s : List α) : List α :=
  if x ∈ s then s else x :: s

/-- Rust `HashSet::remove`: drops the element (sets hold no duplicates; on the
list model we drop every copy). -/
def hsRemove {α : Type} [DecidableEq α] (x : α) (s : List α) : List α :=
  s.filter (fun y => y ≠ x)

/-- Rust `AddressGateway<T>` of `state.rs`, instantiated at byte-list addresses
(used at `Ipv4Addr` and `Ipv6Addr`, both raw byte tuples). -/
structure AddressGateway where
  addresses : List (List Nat)
  gateways : List (List Nat × Priority)
deriving DecidableEq, Repr

/-- Rust `AddressGateway::connectivity_state`. -/
def AddressGateway.connectivity_state (s : AddressGateway) (up : Bool) :
    ConnectivityState :=
  let address := !s.addresses.isEmpty
  let gateway := !s.gateways.isEmpty
  match up, address, gateway with
  | false, _, _ => .none
  | true, false, _ => .none
  | true, true, false => .network
  | true, true, true => .internet

/-- Rust `Interface` of `state.rs`. -/
structure Interface where
  up : Bool
  ipv4 : AddressGateway
  ipv6 : AddressGateway
deriving DecidableEq, Repr

/-- Rust `Interface::new`. -/
def Interface.new (up : Bool) : Interface :=
  { up := up
    ipv4 := { addresses := [], gateways := [] }
    ipv6 := { addresses := [], gateways := [] } }

/-- Rust `Interface::connectivity`. -/
def Interface.connectivity (s : Interface) : Connectivity :=
  { ipv4 := s.ipv4.connectivity_state s.up
    ipv6 := s.ipv6.connectivity_state s.up }

/-- Rust `HashMap::entry(..).or_insert_with(..)` followed by a mutation `f`:
modify the binding in place when present, append `f dflt` otherwise. -/
def upsert (f : Interface → Interface) (dflt : Interface) :
    List (InterfaceIndex × Interface) → InterfaceIndex →
    List (InterfaceIndex × Interface)
  | [], i => [(i, f dflt)]
  | (k, v) :: t, i =>
    if k = i then (k, f v) :: t else (k, v) :: upsert f dflt t i

/-- Rust `HashMap::entry(..).and_modify(..)`: modify in place when present. -/
def modifyAt (f : Interface → Interface) :
    List (InterfaceIndex × Interface) → InterfaceIndex →
    List (InterfaceIndex × Interface)
  | [], _ => []
  | (k, v) :: t, i =>
    if k = i then (k, f v) :: t else (k, v) :: modifyAt f t i

/-- Rust `HashMap::remove`: drop the binding of the key. -/
def removeAt : List (InterfaceIndex × Interface) → InterfaceIndex →
    List (InterfaceIndex × Interface)
  | [], _ => []
  | (k, v) :: t, i => if k = i then t else (k, v) :: removeAt t i

/-- Lookup of a key in the association-list model of the map. -/
def findAt : List (InterfaceIndex × Interface) → InterfaceIndex →
    Option Interface
  | [], _ => Option.none
  | (k, v) :: t, i => if k = i then some v else findAt t i

/-- Rust `Interfaces` of `state.rs`: the map from index to interface state. -/
structure Interfaces where
  state : List (InterfaceIndex × Interface)
deriving DecidableEq, Repr

namespace Interfaces

/-- Rust `Interfaces::new`. -/
def new : Interfaces := { state := [] }

/-- The fold step of `Interfaces::connectivity`. -/
def connStep (acc : Connectivity) (p : InterfaceIndex × Interface) :
    Connectivity :=
  let ic := p.2.connectivity
  { ipv4 := ConnectivityState.cmax acc.ipv4 ic.ipv4
    ipv6 := ConnectivityState.cmax acc.ipv6 ic.ipv6 }

/-- Rust `Interfaces::connectivity`: fold of per-interface connectivity with
`max`, starting from `{None, None}`. -/
def connectivity (m : Interfaces) : Connectivity :=
  m.state.foldl connStep { ipv4 := .none, ipv6 := .none }

/-- Rust `Interfaces::add_link`. -/
def add_link (m : Interfaces) (link : LinkInfo) : Interfaces :=
  let (index, loop_back, carrier) := link
  if loop_back then m
  else { state := upsert (fun s => { s with up := carrier })
                    (Interface.new false) m.state index }

/-- Rust `Interfaces::remove_link`: drops the entry, ignoring the flags. -/
def remove_link (m : Interfaces) (link : LinkInfo) : Interfaces :=
  { state := removeAt m.state link.1 }

/-- Rust `Interfaces::add_address`. -/
def add_address (m : Interfaces) (info : AddressInfo) : Interfaces :=
  let (index, address) := info
  let f : Interface → Interface := fun entry =>
    match address with
    | .V4 b => { entry with ipv4 := { entry.ipv4 with
                  addresses := hsInsert b entry.ipv4.addresses } }
    | .V6 b => { entry with ipv6 := { entry.ipv6 with
                  addresses := hsInsert b entry.ipv6.addresses } }
  { state := upsert f (Interface.new false) m.state index }

/-- Rust `Interfaces::remove_address`. -/
def remove_address (m : Interfaces) (info : AddressInfo) : Interfaces :=
  let (index, address) := info
  let f : Interface → Interface := fun entry =>
    match address with
    | .V4 b => { entry with ipv4 := { entry.ipv4 with
                  addresses := hsRemove b entry.ipv4.addresses } }
    | .V6 b => { entry with ipv6 := { entry.ipv6 with
                  addresses := hsRemove b entry.ipv6.addresses } }
  { state := modifyAt f m.state index }

/-- Rust `Interfaces::add_default_route`. -/
def add_default_route (m : Interfaces) (route : RouteInfo) : Interfaces :=
  let (index, address, priority) := route
  let f : Interface → Interface := fun entry =>
    match address with
    | .V4 b => { entry with ipv4 := { entry.ipv4 with
                  gateways := hsInsert (b, priority) entry.ipv4.gateways } }
    | .V6 b => { entry with ipv6 := { entry.ipv6 with
                  gateways := hsInsert (b, priority) entry.ipv6.gateways } }
  { state := upsert f (Interface.new false) m.state index }

/-- Rust `Interfaces::remove_default_route`. -/
def remove_default_route (m : Interfaces) (route : RouteInfo) : Interfaces :=
  let (index, address, priority) := route
  let f : Interface → Interface := fun entry =>
    match address with
    | .V4 b => { entry with ipv4 := { entry.ipv4 with
                  gateways := hsRemove (b, priority) entry.ipv4.gateways } }
    | .V6 b => { entry with ipv6 := { entry.ipv6 with
                  gateways := hsRemove (b, priority) entry.ipv6.gateways } }
  { state := modifyAt f m.state index }

end Interfaces

/-! ## Linux adapter (`src/linux.rs`) -/

namespace Linux

/-- Rust `IFF_LOOPBACK`. -/
def IFF_LOOPBACK : Nat := 8
/-- Rust `IFF_LOWER_UP`. -/
def IFF_LOWER_UP : Nat := 65536
/-- Linux `AF_INET`. -/
def AF_INET : Nat := 2
/-- Linux `AF_INET6`. -/
def AF_INET6 : Nat := 10
/-- Rust `IFA_F_PERMANENT`. -/
def IFA_F_PERMANENT : Nat := 128

/-- The header part of a netlink `LinkMessage` used by the adapter. -/
structure LinkMessage where
  index : Nat
  flags : Nat
deriving DecidableEq, Repr

/-- Address-message attribute (`nlas::address::Nla`), restricted to the
variants the adapter examines plus an opaque rest. -/
inductive AddressNla where
  | address (bytes : List Nat)
  | flags (value : Nat)
  | otherNla
deriving DecidableEq, Repr

/-- The parts of a netlink `AddressMessage` used by the adapter. -/
structure AddressMessage where
  family : Nat
  headerFlags : Nat
  index : Nat
  nlas : List AddressNla
deriving DecidableEq, Repr

/-- Route-message attribute (`nlas::route::Nla`), restricted to the
variants the adapter examines plus an opaque rest. -/
inductive RouteNla where
  | oif (value : Nat)
  | gateway (bytes : List Nat)
  | priority (value : Nat)
  | otherNla
deriving DecidableEq, Repr

/-- The parts of a netlink `RouteMessage` used by the adapter, including
the destination prefix of the header. -/
structure RouteMessage where
  addressFamily : Nat
  dstPfxLen : Nat
  dstPfx : List Nat
  nlas : List RouteNla
deriving DecidableEq, Repr

/-- Rust `parse_link`. -/
def parse_link (link : LinkMessage) : LinkInfo :=
  (link.index, link.flags &&& IFF_LOOPBACK ≠ 0, link.flags &&& IFF_LOWER_UP ≠ 0)

/-- First `Address` attribute of an address message. -/
def firstAddress (nlas : List AddressNla) : Option (List Nat) :=
  nlas.findSome? fun nla =>
    match nla with
    | .address b => some b
    | _ => Option.none

/-- First `Flags` attribute of an address message. -/
def firstAddrFlags (nlas : List AddressNla) : Option Nat :=
  nlas.findSome? fun nla =>
    match nla with
    | .flags f => some f
    | _ => Option.none

/-- Rust `vec_to_array::<u8, N>` composed with `Ipv4Addr::from` /
`Ipv6Addr::from`: succeeds exactly on byte vectors of the right length. -/
def vecToIp (family : Nat) (bytes : List Nat) : Option IpAddr :=
  if family = AF_INET then
    if bytes.length = 4 then some (.V4 bytes) else Option.none
  else if family = AF_INET6 then
    if bytes.length = 16 then some (.V6 bytes) else Option.none
  else Option.none

/-- Rust `parse_address`: needs an `Address` attribute, a family of `AF_INET`
or `AF_INET6` with matching byte length, and the `PERMANENT` bit clear in
the OR of header flags with the first `Flags` attribute. -/
def parse_address (addr : AddressMessage) : Option AddressInfo := do
  let address ← firstAddress addr.nlas
  let flags := ((firstAddrFlags addr.nlas).map
    (fun f => f ||| addr.headerFlags)).getD addr.headerFlags
  let ip_address ← vecToIp addr.family address
  if flags &&& IFA_F_PERMANENT = 0 then pure (addr.index, ip_address)
  else Option.none

/-- First `Oif` attribute of a route message. -/
def firstOif (nlas : List RouteNla) : Option Nat :=
  nlas.findSome? fun nla =>
    match nla with
    | .oif v => some v
    | _ => Option.none

/-- First `Gateway` attribute of a route message. -/
def firstGateway (nlas : List RouteNla) : Option (List Nat) :=
  nlas.findSome? fun nla =>
    match nla with
    | .gateway b => some b
    | _ => Option.none

/-- First `Priority` attribute of a route message. -/
def firstPriority (nlas : List RouteNla) : Option Nat :=
  nlas.findSome? fun nla =>
    match nla with
    | .priority v => some v
    | _ => Option.none

/-- Rust `parse_default_route`: needs the `Oif`, `Gateway` and `Priority`
attributes and a family of `AF_INET`/`AF_INET6` with a gateway of
matching byte length.  The destination prefix of the header is never
examined. -/
def parse_default_route (route : RouteMessage) : Option RouteInfo := do
  let oif ← firstOif route.nlas
  let gateway ← firstGateway route.nlas
  let priority ← firstPriority route.nlas
  let ip_address ← vecToIp route.addressFamily gateway
  pure (oif, ip_address, priority)

/-- Rust `RtnlMessage`, restricted to the variants the driver loop examines. -/
inductive RtnlMessage where
  | newLink (link : LinkMessage)
  | delLink (link : LinkMessage)
  | newAddress (addr : AddressMessage)
  | delAddress (addr : AddressMessage)
  | newRoute (route : RouteMessage)
  | delRoute (route : RouteMessage)
  | otherInner
deriving DecidableEq, Repr

/-- Rust `NetlinkPayload`, restricted to the variants the driver loop examines. -/
inductive NetlinkPayload where
  | error
  | overrun (bytes : List Nat)
  | innerMessage (msg : RtnlMessage)
  | otherPayload
deriving DecidableEq, Repr

/-- The error kinds `check_internet_connectivity` can terminate with:
a netlink error payload, an overrun payload, or a failed send on the
verdict channel (`SendError` propagated by `?`). -/
inductive DriverError where
  | netlink
  | overrun (bytes : List Nat)
  | transport
deriving DecidableEq, Repr

/-- The `InnerMessage` arm of the driver loop: dispatch a parsed message
to the state-model mutation. -/
def applyInner (st : Interfaces) : RtnlMessage → Interfaces
  | .newLink link => st.add_link (parse_link link)
  | .delLink link => st.remove_link (parse_link link)
  | .newAddress addr =>
    match parse_address addr with
    | some info => st.add_address info
    | Option.none => st
  | .delAddress addr =>
    match parse_address addr with
    | some info => st.remove_address info
    | Option.none => st
  | .newRoute route =>
    match parse_default_route route with
    | some info => st.add_default_route info
    | Option.none => st
  | .delRoute route =>
    match parse_default_route route with
    | some info => st.remove_default_route info
    | Option.none => st
  | .otherInner => st

/-- One occurrence of the driver's biased select: either the consumer's
side of the verdict channel is observed closed, or the next message is
delivered.  `recvOpen` records whether the consumer still holds the
receiver when a send is attempted during that iteration (a send fails
exactly when the receiver was dropped after the closed check). -/
inductive LoopEvent where
  | closed
  | msg (payload : NetlinkPayload) (recvOpen : Bool)
deriving DecidableEq, Repr

/-- The `while let` loop of `check_internet_connectivity`: applies each
message to the state, and after every applied message re-derives the
verdict; when it differs from the last emitted one (`diff_assign`) the
verdict is sent — a failing send propagates as an error via `?`.
Returns the verdicts emitted by the loop and the terminal result. -/
def runLoop (st : Interfaces) (conn : Connectivity) :
    List LoopEvent → List Connectivity × Except DriverError Unit
  | [] => ([], .ok ())
  | .closed :: _ => ([], .ok ())
  | .msg payload recvOpen :: rest =>
    match payload with
    | .error => ([], .error .netlink)
    | .overrun bytes => ([], .error (.overrun bytes))
    | .innerMessage m =>
      let st' := applyInner st m
      let conn' := st'.connectivity
      if conn' = conn then runLoop st' conn rest
      else if recvOpen then
        (conn' :: (runLoop st' conn' rest).1, (runLoop st' conn' rest).2)
      else ([], .error .transport)
    | .otherPayload =>
      let conn' := st.connectivity
      if conn' = conn then runLoop st conn rest
      else if recvOpen then
        (conn' :: (runLoop st conn' rest).1, (runLoop st conn' rest).2)
      else ([], .error .transport)

/-- Rust `check_internet_connectivity` after the initial snapshot has been
applied: derive the initial verdict, publish it (a failing initial send
propagates as an error via `?`), then run the message loop.  Returns the
full stream of published verdicts and the terminal result. -/
def check_internet_connectivity (initState : Interfaces)
    (initRecvOpen : Bool) (events : List LoopEvent) :
    List Connectivity × Except DriverError Unit :=
  let connectivity := initState.connectivity
  if initRecvOpen then
    (connectivity :: (runLoop initState connectivity events).1,
      (runLoop initState connectivity events).2)
  else ([], .error .transport)

end Linux

/-! ## Windows adapter (`src/windows.rs`) -/

namespace Windows

/-- Windows `AF_INET`. -/
def AF_INET : Nat := 2
/-- Windows `AF_INET6`. -/
def AF_INET6 : Nat := 23
/-- Rust `IF_TYPE_SOFTWARE_LOOPBACK`. -/
def IF_TYPE_SOFTWARE_LOOPBACK : Nat := 24
/-- Rust `IfOperStatusUp`. -/
def IfOperStatusUp : Nat := 1

/-- Rust `SOCKADDR_INET`: the `si_family` selector plus the remaining bytes of
the union (26 bytes in the 28-byte union); equality is structural, as the
`windows` crate's `PartialEq` compares the whole union. -/
structure SockaddrInet where
  si_family : Nat
  rest : List Nat
deriving DecidableEq, Repr

/-- Rust `SOCKADDR_INET::default()`: all-zero bytes. -/
def SockaddrInet.default : SockaddrInet :=
  { si_family := 0, rest := List.replicate 26 0 }

/-- Rust `sockaddr_inet_check_ip_type`. -/
def sockaddr_inet_check_ip_type (address : SockaddrInet) (ip_type : Nat) :
    Bool := address.si_family = ip_type

/-- The fields of `MIB_IF_ROW2` read by the adapter.  `hardware` is bit 0
of `InterfaceAndOperStatusFlags`. -/
structure MibIfRow2 where
  interfaceIndex : Nat
  typ : Nat
  operStatus : Nat
  hardware : Bool
deriving DecidableEq, Repr

/-- The fields of `MIB_UNICASTIPADDRESS_ROW` read by the adapter, plus
`ValidLifetime`, which §4.3 of the spec discusses. -/
structure MibUnicastRow where
  interfaceIndex : Nat
  address : SockaddrInet
  validLifetime : Nat
deriving DecidableEq, Repr

/-- The fields of `MIB_IPFORWARD_ROW2` read by the adapter. -/
structure MibForwardRow2 where
  interfaceIndex : Nat
  dstPfxLen : Nat
  dstPfx : SockaddrInet
  nextHop : SockaddrInet
deriving DecidableEq, Repr

/-- The default-route filter of `connectivity_from_system`: prefix length
zero and a destination prefix equal to a defaulted `SOCKADDR_INET` whose
family was set to the row's own family (all other bytes zero). -/
def isDefaultRoute (route : MibForwardRow2) : Bool :=
  let prefix_compare :=
    { SockaddrInet.default with si_family := route.dstPfx.si_family }
  route.dstPfxLen = 0 ∧ route.dstPfx = prefix_compare

/-- The interface filter of `connectivity_from_system`. -/
def interfaceKept (interface : MibIfRow2) : Bool :=
  interface.hardware ∧ interface.typ ≠ IF_TYPE_SOFTWARE_LOOPBACK ∧
    interface.operStatus = IfOperStatusUp

/-- The per-interface verdict of `connectivity_from_system`: the first
matching address / default route of each family decides the level. -/
def interfaceConnectivity (addresses : List MibUnicastRow)
    (routes : List MibForwardRow2) (interface : MibIfRow2) : Connectivity :=
  let interface_addresses := addresses.filter
    (fun address => address.interfaceIndex = interface.interfaceIndex)
  let default_routes := (routes.filter isDefaultRoute).filter
    (fun route => route.interfaceIndex = interface.interfaceIndex)
  let ipv4 :=
    match interface_addresses.find?
        (fun address => sockaddr_inet_check_ip_type address.address AF_INET),
      default_routes.find?
        (fun route => sockaddr_inet_check_ip_type route.nextHop AF_INET) with
    | Option.none, _ => ConnectivityState.none
    | some _, Option.none => ConnectivityState.network
    | some _, some _ => ConnectivityState.internet
  let ipv6 :=
    match interface_addresses.find?
        (fun address => sockaddr_inet_check_ip_type address.address AF_INET6),
      default_routes.find?
        (fun route => sockaddr_inet_check_ip_type route.nextHop AF_INET6) with
    | Option.none, _ => ConnectivityState.none
    | some _, Option.none => ConnectivityState.network
    | some _, some _ => ConnectivityState.internet
  { ipv4 := ipv4, ipv6 := ipv6 }

/-- Rust `Iterator::reduce` with the max-combine closure. -/
def reduceMax : List Connectivity → Option Connectivity
  | [] => Option.none
  | h :: t => some (t.foldl (fun a b =>
      { ipv4 := ConnectivityState.cmax a.ipv4 b.ipv4
        ipv6 := ConnectivityState.cmax a.ipv6 b.ipv6 }) h)

/-- Rust `connectivity_from_system`, as a pure function of the three tables:
filter the interfaces, derive a per-interface verdict from the first
matching address and default route of each family, and reduce with the
per-family maximum (`{None, None}` when no interface is kept). -/
def connectivity_from_system (interfaces : List MibIfRow2)
    (addresses : List MibUnicastRow) (routes : List MibForwardRow2) :
    Connectivity :=
  let mapped := (interfaces.filter interfaceKept).map
    (interfaceConnectivity addresses routes)
  (reduceMax mapped).getD { ipv4 := .none, ipv6 := .none }

end Windows

/-! ## Spec-side definitions and concrete inputs -/

/-- The per-family level of one interface as the spec words it (I4):
`None` if `carrier=false` or addresses empty; `Network` if addresses
non-empty but gateways empty; `Internet` if both non-empty.  Stated
independently of the code's `connectivity_state` for comparison. -/
def levelSpec (up : Bool) (ag : AddressGateway) : ConnectivityState :=
  if up = false ∨ ag.addresses = [] then .none
  else if ag.gateways = [] then .network
  else .internet

/-- Per-family fold of `max` over a list of levels. -/
def foldc (l : List ConnectivityState) (acc : ConnectivityState) :
    ConnectivityState :=
  l.foldl ConnectivityState.cmax acc

/-- What `add_address` must leave in a freshly created entry besides the
set inserted into: carrier `false` and the three other sets empty. -/
def addressFresh : IpAddr → Interface → Prop
  | .V4 _, ifc =>
    ifc.up = false ∧ ifc.ipv4.gateways = [] ∧
      ifc.ipv6.addresses = [] ∧ ifc.ipv6.gateways = []
  | .V6 _, ifc =>
    ifc.up = false ∧ ifc.ipv6.gateways = [] ∧
      ifc.ipv4.addresses = [] ∧ ifc.ipv4.gateways = []

/-- What `add_default_route` must leave in a freshly created entry besides
the set inserted into: carrier `false` and the three other sets empty. -/
def routeFresh : IpAddr → Interface → Prop
  | .V4 _, ifc =>
    ifc.up = false ∧ ifc.ipv4.addresses = [] ∧
      ifc.ipv6.addresses = [] ∧ ifc.ipv6.gateways = []
  | .V6 _, ifc =>
    ifc.up = false ∧ ifc.ipv6.addresses = [] ∧
      ifc.ipv4.addresses = [] ∧ ifc.ipv4.gateways = []

/-- A map with one carried interface holding one v4 address: verdict
`{Network, None}`. -/
def sampleMap : Interfaces :=
  (Interfaces.new.add_link (1, false, true)).add_address (1, .V4 [192, 0, 2, 5])

/-- A v4 route message with destination prefix `10.0.0.0/24` (not a
default route) that still carries `Oif`, `Gateway` and `Priority`. -/
def nonDefaultRoute : Linux.RouteMessage :=
  { addressFamily := 2, dstPfxLen := 24, dstPfx := [10, 0, 0],
    nlas := [.oif 1, .gateway [192, 168, 1, 1], .priority 100] }

/-- An address message carrying an `Address` attribute with the
`PERMANENT` bit clear, but with address family `AF_UNSPEC` (0). -/
def unspecAddressMsg : Linux.AddressMessage :=
  { family := 0, headerFlags := 0, index := 1, nlas := [.address [1, 2, 3, 4]] }

/-- A link message for index 1 with `LOWER_UP` set (carrier, not loopback). -/
def upLinkMsg : Linux.LinkMessage := { index := 1, flags := 65536 }

/-- A valid dynamic v4 address message for index 1. -/
def v4AddressMsg : Linux.AddressMessage :=
  { family := 2, headerFlags := 0, index := 1, nlas := [.address [192, 0, 2, 5]] }

/-- A Windows interface row: up, hardware, not loopback. -/
def winIfRow : Windows.MibIfRow2 :=
  { interfaceIndex := 1, typ := 6, operStatus := 1, hardware := true }

/-- A Windows unicast v4 address row for that interface whose
`ValidLifetime` is `0xFFFFFFFF` (infinite). -/
def winInfiniteAddrRow : Windows.MibUnicastRow :=
  { interfaceIndex := 1, address := { si_family := 2, rest := List.replicate 26 1 },
    validLifetime := 4294967295 }

/-! ## Helper lemmas -/

theorem cs_le_refl (a : ConnectivityState) : ConnectivityState.le a a :=
  Nat.le_refl _

theorem cs_le_trans {a b c : ConnectivityState} (h1 : ConnectivityState.le a b)
    (h2 : ConnectivityState.le b c) : ConnectivityState.le a c :=
  Nat.le_trans h1 h2

theorem cs_le_cmax_left (a b : ConnectivityState) :
    ConnectivityState.le a (ConnectivityState.cmax a b) := by
  cases a <;> cases b <;> decide

theorem cs_le_cmax_right (a b : ConnectivityState) :
    ConnectivityState.le b (ConnectivityState.cmax a b) := by
  cases a <;> cases b <;> decide

theorem cs_cmax_cases (a b : ConnectivityState) :
    ConnectivityState.cmax a b = a ∨ ConnectivityState.cmax a b = b := by
  unfold ConnectivityState.cmax; split <;> simp

theorem cs_le_foldc_acc (l : List ConnectivityState) (acc : ConnectivityState) :
    ConnectivityState.le acc (foldc l acc) := by
  induction l generalizing acc with
  | nil => exact cs_le_refl acc
  | cons h t ih =>
    exact cs_le_trans (cs_le_cmax_left acc h) (ih (ConnectivityState.cmax acc h))

theorem cs_le_foldc_mem {l : List ConnectivityState} {x : ConnectivityState}
    (acc : ConnectivityState) (hx : x ∈ l) :
    ConnectivityState.le x (foldc l acc) := by
  induction l generalizing acc with
  | nil => cases hx
  | cons h t ih =>
    rcases List.mem_cons.mp hx with rfl | hmem
    · exact cs_le_trans (cs_le_cmax_right acc x) (cs_le_foldc_acc t _)
    · exact ih _ hmem

theorem cs_foldc_mem_or_acc (l : List ConnectivityState) (acc : ConnectivityState) :
    foldc l acc = acc ∨ foldc l acc ∈ l := by
  induction l generalizing acc with
  | nil => exact Or.inl rfl
  | cons h t ih =>
    rcases ih (ConnectivityState.cmax acc h) with heq | hmem
    · rcases cs_cmax_cases acc h with hc | hc
      · exact Or.inl (by rw [foldc, List.foldl_cons, ← foldc]; rw [heq, hc])
      · exact Or.inr (by rw [foldc, List.foldl_cons, ← foldc]; rw [heq, hc]; simp)
    · exact Or.inr (by rw [foldc, List.foldl_cons, ← foldc]; simp [hmem])

theorem connectivity_state_eq_levelSpec (ag : AddressGateway) (up : Bool) :
    ag.connectivity_state up = levelSpec up ag := by
  cases up <;> cases h4 : ag.addresses <;> cases h6 : ag.gateways <;>
    simp [AddressGateway.connectivity_state, levelSpec, h4, h6]

theorem foldl_connStep_split (l : List (InterfaceIndex × Interface))
    (acc : Connectivity) :
    l.foldl Interfaces.connStep acc =
      { ipv4 := foldc (l.map fun p => p.2.ipv4.connectivity_state p.2.up) acc.ipv4,
        ipv6 := foldc (l.map fun p => p.2.ipv6.connectivity_state p.2.up) acc.ipv6 } := by
  induction l generalizing acc with
  | nil => simp [foldc]
  | cons h t ih =>
    rw [List.foldl_cons, ih]
    simp [Interfaces.connStep, Interface.connectivity, foldc]

theorem connectivity_split (m : Interfaces) :
    m.connectivity =
      { ipv4 := foldc (m.state.map fun p => p.2.ipv4.connectivity_state p.2.up)
          ConnectivityState.none,
        ipv6 := foldc (m.state.map fun p => p.2.ipv6.connectivity_state p.2.up)
          ConnectivityState.none } :=
  foldl_connStep_split m.state _

/-- C1: `connectivity()` returns, per family, the maximum over stored
interfaces of the per-interface level, where the level follows I4 of the
spec (`None` if carrier false or addresses empty, `Network` if addresses
non-empty but gateways empty, `Internet` if both non-empty); the fold
starts from `{None, None}`, so the empty map yields `{None, None}`. -/
theorem C1_connectivity_is_max_of_levels :
    (∀ (ag : AddressGateway) (up : Bool),
        ag.connectivity_state up = levelSpec up ag) ∧
    (∀ m : Interfaces,
      (∀ p ∈ m.state,
          ConnectivityState.le (levelSpec p.2.up p.2.ipv4) m.connectivity.ipv4) ∧
      (∀ p ∈ m.state,
          ConnectivityState.le (levelSpec p.2.up p.2.ipv6) m.connectivity.ipv6) ∧
      (m.connectivity.ipv4 = .none ∨
        ∃ p ∈ m.state, levelSpec p.2.up p.2.ipv4 = m.connectivity.ipv4) ∧
      (m.connectivity.ipv6 = .none ∨
        ∃ p ∈ m.state, levelSpec p.2.up p.2.ipv6 = m.connectivity.ipv6)) ∧
    Interfaces.new.connectivity = { ipv4 := .none, ipv6 := .none } := by
  refine ⟨connectivity_state_eq_levelSpec, fun m => ⟨?_, ?_, ?_, ?_⟩, rfl⟩
  · intro p hp
    rw [connectivity_split]
    exact cs_le_foldc_mem _ (by
      rw [← connectivity_state_eq_levelSpec]
      exact List.mem_map.mpr ⟨p, hp, rfl⟩)
  · intro p hp
    rw [connectivity_split]
    exact cs_le_foldc_mem _ (by
      rw [← connectivity_state_eq_levelSpec]
      exact List.mem_map.mpr ⟨p, hp, rfl⟩)
  · rw [connectivity_split]
    rcases cs_foldc_mem_or_acc
        (m.state.map fun p => p.2.ipv4.connectivity_state p.2.up)
        ConnectivityState.none with heq | hmem
    · exact Or.inl heq
    · rcases List.mem_map.mp hmem with ⟨p, hp, hpe⟩
      exact Or.inr ⟨p, hp, by rw [← connectivity_state_eq_levelSpec, hpe]⟩
  · rw [connectivity_split]
    rcases cs_foldc_mem_or_acc
        (m.state.map fun p => p.2.ipv6.connectivity_state p.2.up)
        ConnectivityState.none with heq | hmem
    · exact Or.inl heq
    · rcases List.mem_map.mp hmem with ⟨p, hp, hpe⟩
      exact Or.inr ⟨p, hp, by rw [← connectivity_state_eq_levelSpec, hpe]⟩

/-- Witness for C1 on the concrete map `sampleMap` (one carried interface
with one v4 address), discharging the membership hypotheses. -/
theorem C1_witness :
    ConnectivityState.le
      (levelSpec true { addresses := [[192, 0, 2, 5]], gateways := [] })
      sampleMap.connectivity.ipv4 := by
  have h := (C1_connectivity_is_max_of_levels.2.1 sampleMap).1
    (1, { up := true,
          ipv4 := { addresses := [[192, 0, 2, 5]], gateways := [] },
          ipv6 := { addresses := [], gateways := [] } })
    (by decide)
  exact h

/-- C2 counterexample: from the empty map, `add_address` followed by
`remove_address` with equal arguments does not yield the empty map —
`remove_address` never deletes the interface entry that `add_address`
created, so a stub entry with carrier `false` and empty sets remains. -/
theorem C2_counterexample :
    (Interfaces.new.add_address (1, .V4 [1, 2, 3, 4])).remove_address
        (1, .V4 [1, 2, 3, 4]) ≠ Interfaces.new := by
  decide

/-- C2 amended: from the empty map, `add_link` then `remove_link` with
equal arguments yields the empty map; `add_address` then `remove_address`
(and `add_default_route` then `remove_default_route`) with equal arguments
yields not the empty map but the map holding a single interface entry with
carrier `false` and all four sets empty, because address and route
removals never delete the interface entry. -/
theorem C2_roundtrip_amended :
    ∀ (l : LinkInfo) (a : AddressInfo) (r : RouteInfo),
      (Interfaces.new.add_link l).remove_link l = Interfaces.new ∧
      (Interfaces.new.add_address a).remove_address a =
        { state := [(a.1, Interface.new false)] } ∧
      (Interfaces.new.add_default_route r).remove_default_route r =
        { state := [(r.1, Interface.new false)] } := by
  rintro ⟨i, lb, c⟩ ⟨j, a⟩ ⟨k, g, p⟩
  refine ⟨?_, ?_, ?_⟩
  · cases lb <;>
      simp [Interfaces.add_link, Interfaces.remove_link, Interfaces.new,
        upsert, removeAt]
  · cases a <;>
      simp [Interfaces.add_address, Interfaces.remove_address, Interfaces.new,
        upsert, modifyAt, hsInsert, hsRemove, Interface.new]
  · cases g <;>
      simp [Interfaces.add_default_route, Interfaces.remove_default_route,
        Interfaces.new, upsert, modifyAt, hsInsert, hsRemove, Interface.new]

theorem vecToIp_isSome (family : Nat) (bytes : List Nat) :
    (Linux.vecToIp family bytes).isSome ↔
      (family = Linux.AF_INET ∧ bytes.length = 4) ∨
      (family = Linux.AF_INET6 ∧ bytes.length = 16) := by
  unfold Linux.vecToIp
  split_ifs <;> simp_all [Linux.AF_INET, Linux.AF_INET6]

/-- C3 counterexample: a v4 route message with destination prefix length
24 (not a default route) that carries `Oif`, `Gateway` and `Priority` is
parsed as a default route, and applying it to the empty state adds a
gateway entry — contradicting the part of the claim that no gateway entry
is added for a non-zero destination prefix. -/
theorem C3_counterexample :
    nonDefaultRoute.dstPfxLen = 24 ∧
    Linux.applyInner Interfaces.new (.newRoute nonDefaultRoute) =
      { state := [(1,
          { up := false,
            ipv4 := { addresses := [], gateways := [([192, 168, 1, 1], 100)] },
            ipv6 := { addresses := [], gateways := [] } })] } := by
  decide

/-- C3 amended: the Linux adapter treats a route message as a default
route iff it carries all three of `Oif`, `Gateway` and `Priority` AND its
header family is `AF_INET`/`AF_INET6` with a gateway of matching byte
length; the destination prefix is never examined, so a message carrying
the three attributes with a non-zero destination prefix still adds its
gateway entry. -/
theorem C3_parse_default_route_amended :
    ∀ route : Linux.RouteMessage,
      ((Linux.parse_default_route route).isSome ↔
        (Linux.firstOif route.nlas).isSome ∧
        (Linux.firstPriority route.nlas).isSome ∧
        (∃ gw, Linux.firstGateway route.nlas = some gw ∧
          ((route.addressFamily = Linux.AF_INET ∧ gw.length = 4) ∨
           (route.addressFamily = Linux.AF_INET6 ∧ gw.length = 16)))) ∧
      (∀ (len : Nat) (pfx : List Nat),
        Linux.parse_default_route { route with dstPfxLen := len, dstPfx := pfx } =
          Linux.parse_default_route route) := by
  intro route
  refine ⟨?_, fun len pfx => rfl⟩
  rcases ho : Linux.firstOif route.nlas with _ | oif
  · simp [Linux.parse_default_route, ho]
  · rcases hg : Linux.firstGateway route.nlas with _ | gw
    · simp [Linux.parse_default_route, ho, hg]
    · rcases hp : Linux.firstPriority route.nlas with _ | pr
      · simp [Linux.parse_default_route, ho, hg, hp]
      · have hv := vecToIp_isSome route.addressFamily gw
        rcases hip : Linux.vecToIp route.addressFamily gw with _ | ip
        · rw [hip] at hv; simp at hv
          simp [Linux.parse_default_route, ho, hg, hp, hip]
          exact hv
        · rw [hip] at hv; simp at hv
          simp [Linux.parse_default_route, ho, hg, hp, hip]
          exact hv

/-- C8 counterexample: an address message carrying an `Address` attribute
whose flags have the `PERMANENT` bit clear, but whose header family is
`AF_UNSPEC` (0), is rejected by `parse_address` — contradicting the claim
that conditions (a) and (b) alone decide validity. -/
theorem C8_counterexample :
    (Linux.firstAddress unspecAddressMsg.nlas).isSome ∧
    (((Linux.firstAddrFlags unspecAddressMsg.nlas).map
        (fun f => f ||| unspecAddressMsg.headerFlags)).getD
        unspecAddressMsg.headerFlags) &&& Linux.IFA_F_PERMANENT = 0 ∧
    Linux.parse_address unspecAddressMsg = Option.none := by
  decide

/-- C8 amended: the Linux adapter considers an address message valid iff
(a) it carries an `Address` attribute, (b) the OR of the header flags with
any `Flags` attribute has the `PERMANENT` bit clear, AND (c) the header
family is `AF_INET` with a 4-byte address or `AF_INET6` with a 16-byte
address; exactly then the address mutation is emitted. -/
theorem C8_parse_address_amended :
    ∀ addr : Linux.AddressMessage,
      (Linux.parse_address addr).isSome ↔
        ∃ bytes, Linux.firstAddress addr.nlas = some bytes ∧
          (((Linux.firstAddrFlags addr.nlas).map
              (fun f => f ||| addr.headerFlags)).getD addr.headerFlags) &&&
              Linux.IFA_F_PERMANENT = 0 ∧
          ((addr.family = Linux.AF_INET ∧ bytes.length = 4) ∨
           (addr.family = Linux.AF_INET6 ∧ bytes.length = 16)) := by
  intro addr
  rcases ha : Linux.firstAddress addr.nlas with _ | bytes
  · simp [Linux.parse_address, ha]
  · have hv := vecToIp_isSome addr.family bytes
    rcases hip : Linux.vecToIp addr.family bytes with _ | ip
    · rw [hip] at hv; simp at hv
      simp [Linux.parse_address, ha, hip]
      intro _
      exact hv
    · rw [hip] at hv; simp at hv
      simp [Linux.parse_address, ha, hip]
      intro _
      exact hv

theorem find?_filter_map_comm {α : Type} (g : α → α) (p q : α → Bool)
    (hp : ∀ a, p (g a) = p a) (hq : ∀ a, q (g a) = q a) (l : List α) :
    ((l.map g).filter p).find? q = Option.map g ((l.filter p).find? q) := by
  induction l with
  | nil => rfl
  | cons h t ih =>
    simp only [List.map_cons, List.filter_cons, hp]
    cases hph : p h
    · simpa using ih
    · simp only [if_pos]
      cases hqh : q h
      · simp [List.find?, hq, hqh, ih]
      · simp [List.find?, hq, hqh]

theorem interfaceConnectivity_lifetime_irrelevant
    (f : Windows.MibUnicastRow → Nat) (addresses : List Windows.MibUnicastRow)
    (routes : List Windows.MibForwardRow2) (interface : Windows.MibIfRow2) :
    Windows.interfaceConnectivity
        (addresses.map fun row => { row with validLifetime := f row })
        routes interface
      = Windows.interfaceConnectivity addresses routes interface := by
  simp only [Windows.interfaceConnectivity]
  rw [find?_filter_map_comm
        (fun (row : Windows.MibUnicastRow) => { row with validLifetime := f row })
        (fun address => address.interfaceIndex = interface.interfaceIndex)
        (fun address =>
          Windows.sockaddr_inet_check_ip_type address.address Windows.AF_INET)
        (fun a => rfl) (fun a => rfl) addresses,
      find?_filter_map_comm
        (fun (row : Windows.MibUnicastRow) => { row with validLifetime := f row })
        (fun address => address.interfaceIndex = interface.interfaceIndex)
        (fun address =>
          Windows.sockaddr_inet_check_ip_type address.address Windows.AF_INET6)
        (fun a => rfl) (fun a => rfl) addresses]
  rcases hf4 : List.find?
      (fun address =>
        Windows.sockaddr_inet_check_ip_type address.address Windows.AF_INET)
      (List.filter
        (fun address => decide (address.interfaceIndex = interface.interfaceIndex))
        addresses) with _ | r4 <;>
    rcases hf6 : List.find?
        (fun address =>
          Windows.sockaddr_inet_check_ip_type address.address Windows.AF_INET6)
        (List.filter
          (fun address => decide (address.interfaceIndex = interface.interfaceIndex))
          addresses) with _ | r6 <;>
    simp only [hf4, hf6, Option.map_some', Option.map_none'] <;>
    rcases hr4 : List.find?
        (fun route =>
          Windows.sockaddr_inet_check_ip_type route.nextHop Windows.AF_INET)
        (List.filter
          (fun route => decide (route.interfaceIndex = interface.interfaceIndex))
          (List.filter Windows.isDefaultRoute routes)) with _ | rr4 <;>
    rcases hr6 : List.find?
        (fun route =>
          Windows.sockaddr_inet_check_ip_type route.nextHop Windows.AF_INET6)
        (List.filter
          (fun route => decide (route.interfaceIndex = interface.interfaceIndex))
          (List.filter Windows.isDefaultRoute routes)) with _ | rr6 <;>
    simp only [hr4, hr6]

/-- C4 counterexample: a unicast address row with
`ValidLifetime == 0xFFFFFFFF` on an up, hardware, non-loopback interface
changes the derived verdict from `{None, None}` to `{Network, None}` —
the Windows adapter never filters rows by lifetime. -/
theorem C4_counterexample :
    Windows.connectivity_from_system [winIfRow] [winInfiniteAddrRow] [] ≠
      Windows.connectivity_from_system [winIfRow] [] [] := by
  decide

/-- C4 amended: the Windows adapter never reads `ValidLifetime`; rows with
infinite lifetime are not skipped, and the derived verdict is invariant
under arbitrary rewrites of every row's `ValidLifetime` field (so the
lifetime value — infinite or not — never influences the verdict, but the
row itself always contributes). -/
theorem C4_lifetime_amended :
    ∀ (interfaces : List Windows.MibIfRow2)
      (addresses : List Windows.MibUnicastRow)
      (routes : List Windows.MibForwardRow2)
      (f : Windows.MibUnicastRow → Nat),
      Windows.connectivity_from_system interfaces
          (addresses.map fun row => { row with validLifetime := f row }) routes
        = Windows.connectivity_from_system interfaces addresses routes := by
  intro interfaces addresses routes f
  unfold Windows.connectivity_from_system
  have hmap : (interfaces.filter Windows.interfaceKept).map
      (Windows.interfaceConnectivity
        (addresses.map fun row => { row with validLifetime := f row }) routes)
      = (interfaces.filter Windows.interfaceKept).map
        (Windows.interfaceConnectivity addresses routes) := by
    induction (interfaces.filter Windows.interfaceKept) with
    | nil => rfl
    | cons h t ih =>
      simp only [List.map_cons, ih,
        interfaceConnectivity_lifetime_irrelevant f addresses routes h]
  rw [hmap]

theorem runLoop_chain :
    ∀ (evs : List Linux.LoopEvent) (st : Interfaces) (conn : Connectivity),
      List.Chain' (fun a b => a ≠ b) (conn :: (Linux.runLoop st conn evs).1) := by
  intro evs
  induction evs with
  | nil => intro st conn; simp [Linux.runLoop]
  | cons e rest ih =>
    intro st conn
    cases e with
    | closed => simp [Linux.runLoop]
    | msg payload recvOpen =>
      cases payload with
      | error => simp [Linux.runLoop]
      | overrun b => simp [Linux.runLoop]
      | innerMessage m =>
        by_cases h : (Linux.applyInner st m).connectivity = conn
        · simpa [Linux.runLoop, h] using ih (Linux.applyInner st m) conn
        · cases recvOpen with
          | false => simp [Linux.runLoop, h]
          | true =>
            have hchain := ih (Linux.applyInner st m)
              (Linux.applyInner st m).connectivity
            simp only [Linux.runLoop, if_neg h, if_pos]
            exact List.chain'_cons.mpr ⟨fun hc => h hc.symm, hchain⟩
      | otherPayload =>
        by_cases h : st.connectivity = conn
        · simpa [Linux.runLoop, h] using ih st conn
        · cases recvOpen with
          | false => simp [Linux.runLoop, h]
          | true =>
            have hchain := ih st st.connectivity
            simp only [Linux.runLoop, if_neg h, if_pos]
            exact List.chain'_cons.mpr ⟨fun hc => h hc.symm, hchain⟩

theorem runLoop_length :
    ∀ (evs : List Linux.LoopEvent) (st : Interfaces) (conn : Connectivity),
      (Linux.runLoop st conn evs).1.length ≤ evs.length := by
  intro evs
  induction evs with
  | nil => intro st conn; simp [Linux.runLoop]
  | cons e rest ih =>
    intro st conn
    cases e with
    | closed => simp [Linux.runLoop]
    | msg payload recvOpen =>
      cases payload with
      | error => simp [Linux.runLoop]
      | overrun b => simp [Linux.runLoop]
      | innerMessage m =>
        by_cases h : (Linux.applyInner st m).connectivity = conn
        · simp only [Linux.runLoop, if_pos h]
          exact Nat.le_succ_of_le (ih _ _)
        · cases recvOpen with
          | false => simp [Linux.runLoop, h]
          | true =>
            simp only [Linux.runLoop, if_neg h, if_pos, List.length_cons]
            exact Nat.succ_le_succ (ih _ _)
      | otherPayload =>
        by_cases h : st.connectivity = conn
        · simp only [Linux.runLoop, if_pos h]
          exact Nat.le_succ_of_le (ih _ _)
        · cases recvOpen with
          | false => simp [Linux.runLoop, h]
          | true =>
            simp only [Linux.runLoop, if_neg h, if_pos, List.length_cons]
            exact Nat.succ_le_succ (ih _ _)

/-- C6: with the consumer present at start, the driver's output stream
begins with the initial verdict publication (whatever its value, including
`{None, None}`), emits at most one verdict per applied event, and no two
adjacent verdicts in the stream are equal. -/
theorem C6_stream_distinct :
    ∀ (initState : Interfaces) (events : List Linux.LoopEvent),
      (Linux.check_internet_connectivity initState true events).1.head? =
        some initState.connectivity ∧
      List.Chain' (fun a b => a ≠ b)
        (Linux.check_internet_connectivity initState true events).1 ∧
      (Linux.check_internet_connectivity initState true events).1.length ≤
        events.length + 1 := by
  intro initState events
  refine ⟨rfl, ?_, ?_⟩
  · exact runLoop_chain events initState initState.connectivity
  · exact Nat.succ_le_succ (runLoop_length events initState initState.connectivity)

/-- C5 counterexample: a run in which the verdict changes while the
consumer is gone (the send fails) terminates with the transport error,
not with `Ok` — `tx.send(connectivity)?` propagates the `SendError`. -/
theorem C5_counterexample :
    (Linux.check_internet_connectivity Interfaces.new true
        [.msg (.innerMessage (.newLink upLinkMsg)) true,
         .msg (.innerMessage (.newAddress v4AddressMsg)) false]).2 =
      Except.error Linux.DriverError.transport := by
  rfl

/-- C5 amended: a failed send on the verdict channel terminates the
driver with the transport error (the `SendError` propagated by `?`), not
with `Ok`; the graceful `Ok` shutdown happens when the consumer-closed
signal is observed by the biased select at the top of the loop. -/
theorem C5_send_failure_amended :
    (∀ (st : Interfaces) (conn : Connectivity) (rest : List Linux.LoopEvent),
        (Linux.runLoop st conn (.closed :: rest)).2 = Except.ok ()) ∧
    (∀ (st : Interfaces) (conn : Connectivity) (m : Linux.RtnlMessage)
        (rest : List Linux.LoopEvent),
        (Linux.applyInner st m).connectivity ≠ conn →
        Linux.runLoop st conn (.msg (.innerMessage m) false :: rest) =
          ([], Except.error Linux.DriverError.transport)) := by
  refine ⟨fun st conn rest => rfl, fun st conn m rest h => ?_⟩
  simp [Linux.runLoop, h]

/-- Witness for C5 amended at concrete inputs: a closed signal yields
`Ok`, and a state-changing message with the receiver gone yields the
transport error. -/
theorem C5_amended_witness :
    (Linux.runLoop Interfaces.new { ipv4 := .none, ipv6 := .none }
        [.closed]).2 = Except.ok () ∧
    Linux.runLoop (Interfaces.new.add_link (1, false, true))
        { ipv4 := .none, ipv6 := .none }
        [.msg (.innerMessage (.newAddress v4AddressMsg)) false] =
      ([], Except.error Linux.DriverError.transport) :=
  ⟨C5_send_failure_amended.1 _ _ _,
   C5_send_failure_amended.2 _ _ _ _ (by decide)⟩

theorem removeAt_of_findAt_none :
    ∀ (l : List (InterfaceIndex × Interface)) (i : InterfaceIndex),
      findAt l i = Option.none → removeAt l i = l := by
  intro l i
  induction l with
  | nil => intro _; rfl
  | cons h t ih =>
    obtain ⟨k, v⟩ := h
    intro hf
    by_cases hk : k = i
    · simp [findAt, hk] at hf
    · simp only [removeAt, if_neg hk]
      rw [ih (by simpa [findAt, hk] using hf)]

/-- C7 counterexample: `remove_link` ignores the loopback flag, so a
loopback-flagged `remove_link` on a key holding a contributing interface
changes the verdict (here from `{Network, None}` to `{None, None}`). -/
theorem C7_counterexample :
    (sampleMap.remove_link (1, true, true)).connectivity ≠
      sampleMap.connectivity := by
  decide

/-- C7 amended: a loopback-flagged `add_link` never changes the map (and
hence the verdict); a loopback-flagged `remove_link` ignores the flag and
drops the entry, so it leaves the verdict unchanged only when the key has
no entry — which holds for genuine loopback keys, since loopback
interfaces are never inserted. -/
theorem C7_loopback_amended :
    ∀ (m : Interfaces) (i : InterfaceIndex) (c : Bool),
      m.add_link (i, true, c) = m ∧
      (findAt m.state i = Option.none →
        (m.remove_link (i, true, c)).connectivity = m.connectivity) := by
  intro m i c
  refine ⟨rfl, fun h => ?_⟩
  show ({ state := removeAt m.state i } : Interfaces).connectivity = _
  rw [removeAt_of_findAt_none m.state i h]

/-- Witness for C7 amended at a key absent from the empty map. -/
theorem C7_amended_witness :
    Interfaces.new.add_link (3, true, true) = Interfaces.new ∧
    (Interfaces.new.remove_link (3, true, true)).connectivity =
      Interfaces.new.connectivity :=
  ⟨(C7_loopback_amended Interfaces.new 3 true).1,
   (C7_loopback_amended Interfaces.new 3 true).2 rfl⟩

theorem hsInsert_idem {α : Type} [DecidableEq α] (x : α) (s : List α) :
    hsInsert x (hsInsert x s) = hsInsert x s := by
  unfold hsInsert
  by_cases h : x ∈ s
  · simp [h]
  · simp [h]

theorem upsert_upsert (f : Interface → Interface) (d : Interface)
    (hf : ∀ v, f (f v) = f v) :
    ∀ (l : List (InterfaceIndex × Interface)) (i : InterfaceIndex),
      upsert f d (upsert f d l i) i = upsert f d l i := by
  intro l i
  induction l with
  | nil => simp [upsert, hf]
  | cons h t ih =>
    obtain ⟨k, v⟩ := h
    by_cases hk : k = i
    · simp [upsert, hk, hf]
    · simp [upsert, hk, ih]

/-- C9: applying the same `add_link`, `add_address` or
`add_default_route` twice yields the same map as applying it once —
`HashSet::insert` and the carrier assignment are idempotent. -/
theorem C9_add_idempotent :
    ∀ (m : Interfaces) (l : LinkInfo) (a : AddressInfo) (r : RouteInfo),
      (m.add_link l).add_link l = m.add_link l ∧
      (m.add_address a).add_address a = m.add_address a ∧
      (m.add_default_route r).add_default_route r = m.add_default_route r := by
  rintro m ⟨i, lb, c⟩ ⟨j, a⟩ ⟨k, g, p⟩
  refine ⟨?_, ?_, ?_⟩
  · cases lb
    · exact congrArg Interfaces.mk
        (upsert_upsert (fun s => { s with up := c }) (Interface.new false)
          (fun v => rfl) m.state i)
    · rfl
  · rcases a with b | b
    · exact congrArg Interfaces.mk
        (upsert_upsert
          (fun entry => { entry with ipv4 := { entry.ipv4 with
            addresses := hsInsert b entry.ipv4.addresses } })
          (Interface.new false)
          (fun v => by simp [hsInsert_idem]) m.state j)
    · exact congrArg Interfaces.mk
        (upsert_upsert
          (fun entry => { entry with ipv6 := { entry.ipv6 with
            addresses := hsInsert b entry.ipv6.addresses } })
          (Interface.new false)
          (fun v => by simp [hsInsert_idem]) m.state j)
  · rcases g with b | b
    · exact congrArg Interfaces.mk
        (upsert_upsert
          (fun entry => { entry with ipv4 := { entry.ipv4 with
            gateways := hsInsert (b, p) entry.ipv4.gateways } })
          (Interface.new false)
          (fun v => by simp [hsInsert_idem]) m.state k)
    · exact congrArg Interfaces.mk
        (upsert_upsert
          (fun entry => { entry with ipv6 := { entry.ipv6 with
            gateways := hsInsert (b, p) entry.ipv6.gateways } })
          (Interface.new false)
          (fun v => by simp [hsInsert_idem]) m.state k)

theorem findAt_upsert_self (f : Interface → Interface) (d : Interface) :
    ∀ (l : List (InterfaceIndex × Interface)) (i : InterfaceIndex),
      findAt (upsert f d l i) i = some (f ((findAt l i).getD d)) := by
  intro l i
  induction l with
  | nil => simp [upsert, findAt]
  | cons h t ih =>
    obtain ⟨k, v⟩ := h
    by_cases hk : k = i
    · simp [upsert, findAt, hk]
    · simp [upsert, findAt, hk, ih]

theorem findAt_upsert_ne (f : Interface → Interface) (d : Interface) :
    ∀ (l : List (InterfaceIndex × Interface)) (i k : InterfaceIndex),
      k ≠ i → findAt (upsert f d l i) k = findAt l k := by
  intro l i k hki
  induction l with
  | nil =>
    simp only [upsert, findAt]
    rw [if_neg (fun h => hki h.symm)]
  | cons h t ih =>
    obtain ⟨k1, v⟩ := h
    by_cases hk : k1 = i
    · have hne : ¬ k1 = k := fun h => hki (h.symm.trans hk)
      simp only [upsert, if_pos hk, findAt]
      rw [if_neg hne, if_neg hne]
    · by_cases hk2 : k1 = k
      · simp only [upsert, if_neg hk, findAt]
        rw [if_pos hk2, if_pos hk2]
      · simp only [upsert, if_neg hk, findAt]
        rw [if_neg hk2, if_neg hk2, ih]

theorem findAt_modifyAt_self (f : Interface → Interface) :
    ∀ (l : List (InterfaceIndex × Interface)) (i : InterfaceIndex),
      findAt (modifyAt f l i) i = (findAt l i).map f := by
  intro l i
  induction l with
  | nil => simp [modifyAt, findAt]
  | cons h t ih =>
    obtain ⟨k, v⟩ := h
    by_cases hk : k = i
    · simp [modifyAt, findAt, hk]
    · simp [modifyAt, findAt, hk, ih]

theorem findAt_modifyAt_ne (f : Interface → Interface) :
    ∀ (l : List (InterfaceIndex × Interface)) (i k : InterfaceIndex),
      k ≠ i → findAt (modifyAt f l i) k = findAt l k := by
  intro l i k hki
  induction l with
  | nil => simp [modifyAt, findAt]
  | cons h t ih =>
    obtain ⟨k1, v⟩ := h
    by_cases hk : k1 = i
    · have hne : ¬ k1 = k := fun h => hki (h.symm.trans hk)
      simp only [modifyAt, if_pos hk, findAt]
      rw [if_neg hne, if_neg hne]
    · by_cases hk2 : k1 = k
      · simp only [modifyAt, if_neg hk, findAt]
        rw [if_pos hk2, if_pos hk2]
      · simp only [modifyAt, if_neg hk, findAt]
        rw [if_neg hk2, if_neg hk2, ih]

theorem preserve_up_upsert (f : Interface → Interface) (d : Interface)
    (l : List (InterfaceIndex × Interface)) (i k : InterfaceIndex)
    (ifc : Interface) (hf : findAt l k = some ifc)
    (hup : ∀ v, (f v).up = v.up) :
    ∃ ifc', findAt (upsert f d l i) k = some ifc' ∧ ifc'.up = ifc.up := by
  by_cases hk : k = i
  · subst hk
    have h1 := findAt_upsert_self f d l k
    rw [hf] at h1
    exact ⟨f ifc, h1, hup ifc⟩
  · exact ⟨ifc, by rw [findAt_upsert_ne f d l i k hk]; exact hf, rfl⟩

theorem preserve_up_modifyAt (f : Interface → Interface)
    (l : List (InterfaceIndex × Interface)) (i k : InterfaceIndex)
    (ifc : Interface) (hf : findAt l k = some ifc)
    (hup : ∀ v, (f v).up = v.up) :
    ∃ ifc', findAt (modifyAt f l i) k = some ifc' ∧ ifc'.up = ifc.up := by
  by_cases hk : k = i
  · subst hk
    have h1 := findAt_modifyAt_self f l k
    rw [hf] at h1
    exact ⟨f ifc, h1, hup ifc⟩
  · exact ⟨ifc, by rw [findAt_modifyAt_ne f l i k hk]; exact hf, rfl⟩

/-- C10: address and route mutations never change the carrier (`up`)
field of any existing interface, and when `add_address` or
`add_default_route` creates a new entry that entry has carrier `false`
with the three sets other than the one inserted into empty. -/
theorem C10_frame_up_preserved :
    (∀ (m : Interfaces) (info : AddressInfo) (k : InterfaceIndex)
        (ifc : Interface), findAt m.state k = some ifc →
        ∃ ifc', findAt (m.add_address info).state k = some ifc' ∧
          ifc'.up = ifc.up) ∧
    (∀ (m : Interfaces) (info : AddressInfo) (k : InterfaceIndex)
        (ifc : Interface), findAt m.state k = some ifc →
        ∃ ifc', findAt (m.remove_address info).state k = some ifc' ∧
          ifc'.up = ifc.up) ∧
    (∀ (m : Interfaces) (info : RouteInfo) (k : InterfaceIndex)
        (ifc : Interface), findAt m.state k = some ifc →
        ∃ ifc', findAt (m.add_default_route info).state k = some ifc' ∧
          ifc'.up = ifc.up) ∧
    (∀ (m : Interfaces) (info : RouteInfo) (k : InterfaceIndex)
        (ifc : Interface), findAt m.state k = some ifc →
        ∃ ifc', findAt (m.remove_default_route info).state k = some ifc' ∧
          ifc'.up = ifc.up) ∧
    (∀ (m : Interfaces) (i : InterfaceIndex) (a : IpAddr),
        findAt m.state i = Option.none →
        ∃ ifc', findAt (m.add_address (i, a)).state i = some ifc' ∧
          addressFresh a ifc') ∧
    (∀ (m : Interfaces) (i : InterfaceIndex) (a : IpAddr) (p : Priority),
        findAt m.state i = Option.none →
        ∃ ifc', findAt (m.add_default_route (i, a, p)).state i = some ifc' ∧
          routeFresh a ifc') := by
  refine ⟨?_, ?_, ?_, ?_, ?_, ?_⟩
  · rintro m ⟨j, a⟩ k ifc hf
    rcases a with b | b <;>
      · refine preserve_up_upsert _ _ m.state j k ifc hf ?_
        intro v
        rfl
  · rintro m ⟨j, a⟩ k ifc hf
    rcases a with b | b <;>
      · refine preserve_up_modifyAt _ m.state j k ifc hf ?_
        intro v
        rfl
  · rintro m ⟨j, a, p⟩ k ifc hf
    rcases a with b | b <;>
      · refine preserve_up_upsert _ _ m.state j k ifc hf ?_
        intro v
        rfl
  · rintro m ⟨j, a, p⟩ k ifc hf
    rcases a with b | b <;>
      · refine preserve_up_modifyAt _ m.state j k ifc hf ?_
        intro v
        rfl
  · rintro m i a h
    rcases a with b | b
    · have h1 := findAt_upsert_self
        (fun entry => { entry with ipv4 := { entry.ipv4 with
          addresses := hsInsert b entry.ipv4.addresses } })
        (Interface.new false) m.state i
      rw [h] at h1
      exact ⟨_, h1, rfl, rfl, rfl, rfl⟩
    · have h1 := findAt_upsert_self
        (fun entry => { entry with ipv6 := { entry.ipv6 with
          addresses := hsInsert b entry.ipv6.addresses } })
        (Interface.new false) m.state i
      rw [h] at h1
      exact ⟨_, h1, rfl, rfl, rfl, rfl⟩
  · rintro m i a p h
    rcases a with b | b
    · have h1 := findAt_upsert_self
        (fun entry => { entry with ipv4 := { entry.ipv4 with
          gateways := hsInsert (b, p) entry.ipv4.gateways } })
        (Interface.new false) m.state i
      rw [h] at h1
      exact ⟨_, h1, rfl, rfl, rfl, rfl⟩
    · have h1 := findAt_upsert_self
        (fun entry => { entry with ipv6 := { entry.ipv6 with
          gateways := hsInsert (b, p) entry.ipv6.gateways } })
        (Interface.new false) m.state i
      rw [h] at h1
      exact ⟨_, h1, rfl, rfl, rfl, rfl⟩

/-- Witness for C10 on concrete maps: `add_address` on `sampleMap`
preserves the carrier of the existing interface, and `add_default_route`
on the empty map creates a fresh carrier-`false` entry. -/
theorem C10_witness :
    (∃ ifc', findAt (sampleMap.add_address (1, .V6 [0, 1])).state 1 =
        some ifc' ∧ ifc'.up = true) ∧
    (∃ ifc', findAt (Interfaces.new.add_default_route
          (2, .V4 [192, 0, 2, 1], 100)).state 2 = some ifc' ∧
        routeFresh (.V4 [192, 0, 2, 1]) ifc') := by
  constructor
  · obtain ⟨ifc', h1, h2⟩ := C10_frame_up_preserved.1 sampleMap
      (1, .V6 [0, 1]) 1
      { up := true,
        ipv4 := { addresses := [[192, 0, 2, 5]], gateways := [] },
        ipv6 := { addresses := [], gateways := [] } } (by decide)
    exact ⟨ifc', h1, h2⟩
  · exact C10_frame_up_preserved.2.2.2.2.2 Interfaces.new 2
      (.V4 [192, 0, 2, 1]) 100 rfl

end RustConnectivity
